import Mathlib

/-!
# Verification of the caching service worker `static/sw.js`

A shallow embedding of the request-interception layer: the path classifier
functions, the two retrieval strategies `cacheFirst` and `networkFirst`, the
`fetch` event handler that dispatches between them, and the `activate` handler
that garbage-collects stale stores.

Modelling conventions.

* A JavaScript string is a Lean `String`; `startsWith`, `endsWith` and
  `includes` compare the character sequences.
* The two regular-expression shapes that occur in the source are the
  constructors of `Pattern`.
* `request.url` is kept in parsed form (`URL`), so that
  `new URL(request.url).pathname` is a field projection.
* The browser's `CacheStorage` is an ordered association list from store names
  to stores, a store an association list from requests to responses.
  `cache.put` overwrites the entry of its key; its promise rejects, and nothing
  is stored, for a request that is not a GET over http(s), for a response of
  status 206 and for a response whose `Vary` header lists `*`.
* The network is a function `Request → Option Response`; `none` is a `fetch`
  whose promise rejects.
* Every platform call a handler makes is appended to `World.trace`, in program
  order, so that "no network attempt" and "no store write" are statements about
  the trace.
* `async` functions are run to completion sequentially. The source calls
  `cache.put` without awaiting it: the call is recorded in the trace and the
  write is queued in `World.pending`, so that the world a strategy returns is
  the state at the point of return, with the write still in flight.
  `World.settle` is the state once the writes in flight have completed.
-/

namespace ServiceWorker

/-! ## Strings and patterns -/

/-- Model of `String.prototype.startsWith`. -/
def startsWith (s p : String) : Bool := p.data.isPrefixOf s.data

/-- Model of `String.prototype.endsWith`. -/
def endsWith (s p : String) : Bool := p.data.isSuffixOf s.data

/-- Model of `String.prototype.includes`. -/
def includes (s p : String) : Bool := s.data.tails.any (fun t => p.data.isPrefixOf t)

/-- The regular expressions of the source: `/^lit/` and `/\.(a|b|...)$/`. -/
inductive Pattern where
  | startLiteral (lit : String)
  | dotAltEnd (alts : List String)
deriving DecidableEq, Repr

/-- Model of `RegExp.prototype.test` (and of the truthiness of `String.prototype.match`). -/
def Pattern.test : Pattern → String → Bool
  | .startLiteral lit, s => startsWith s lit
  | .dotAltEnd alts, s => alts.any (fun a => endsWith s ("." ++ a))

/-! ## Constants -/

def CACHE_NAME : String := "teacher-tools-v1.0.0"

def STATIC_CACHE : String := "static-cache-v1"

def DYNAMIC_CACHE : String := "dynamic-cache-v1"

def API_CACHE_PATTERNS : List Pattern :=
  [ .startLiteral "/api/schedule/events",
    .startLiteral "/api/groups",
    .startLiteral "/api/assignments" ]

/-! ## Classifier functions -/

def isStaticFile (pathname : String) : Bool :=
  (Pattern.dotAltEnd
    ["css", "js", "png", "jpg", "jpeg", "gif", "svg", "ico", "woff", "woff2", "ttf", "eot"]).test
    pathname

def isAPIRequest (pathname : String) : Bool :=
  startsWith pathname "/api/" || API_CACHE_PATTERNS.any (fun pattern => pattern.test pathname)

def isPageRequest (pathname : String) : Bool :=
  endsWith pathname "/" || (Pattern.dotAltEnd ["html", "htm"]).test pathname
    || !(includes pathname ".")

/-- The resource classes the `fetch` handler distinguishes. -/
inductive ResourceClass where
  | Static
  | API
  | Page
  | Other
deriving DecidableEq, Repr

/-- The branch of the `fetch` handler's `if`/`else if` chain a path selects. -/
def classify (pathname : String) : ResourceClass :=
  if isStaticFile pathname then .Static
  else if isAPIRequest pathname then .API
  else if isPageRequest pathname then .Page
  else .Other

/-! ## Requests, responses, stores -/

structure URL where
  origin : String
  pathname : String
  search : String
deriving DecidableEq, Repr

structure Request where
  method : String
  url : URL
deriving DecidableEq, Repr

structure Response where
  status : Nat
  headers : List (String × String)
  body : String
deriving DecidableEq, Repr

/-- Model of `response.ok`: the status is in the range 200..299. -/
def Response.ok (r : Response) : Bool := 200 ≤ r.status && r.status ≤ 299

/-- Model of `response.clone()`. -/
def Response.clone (r : Response) : Response := r

/-- The `init` argument of `new Response(body, init)`. -/
structure ResponseInit where
  status : Option Nat
  headers : List (String × String)
deriving DecidableEq, Repr

/-- Model of `new Response(body, init)`: the status defaults to 200. Headers the
platform adds by itself are not modelled. -/
def Response.new (body : String) (init : ResponseInit) : Response :=
  { status := init.status.getD 200, headers := init.headers, body := body }

/-- Model of `headers.get(name)`. -/
def Response.header (r : Response) (name : String) : Option String :=
  (r.headers.find? (fun h => h.1 = name)).map (fun h => h.2)

abbrev Cache := List (Request × Response)

abbrev CacheStorage := List (String × Cache)

/-- Model of `cache.match(request)`. -/
def Cache.matchRequest (c : Cache) (request : Request) : Option Response :=
  (c.find? (fun e => e.1 = request)).map (fun e => e.2)

/-- The field values of a comma-separated header value, as character lists. -/
def fieldValues (value : String) : List (List Char) :=
  (value.data.foldr
    (fun c acc =>
      if c = ',' then [] :: acc
      else match acc with
        | [] => [[c]]
        | x :: xs => (c :: x) :: xs)
    [[]]).map
    (fun v => ((v.dropWhile (fun c => c = ' ' || c = '\t')).reverse.dropWhile
      (fun c => c = ' ' || c = '\t')).reverse)

/-- The response carries a `Vary` header (the name compared without regard to case) one of
whose field values is `*`. -/
def Response.variesOnEverything (r : Response) : Bool :=
  r.headers.any (fun h => h.1.data.map Char.toLower = "vary".data &&
    (fieldValues h.2).any (fun v => v = ['*']))

/-- The conditions under which the promise of `cache.put(request, response)` resolves: the
request is a GET over http or https, the status is not 206 and `Vary` does not list `*`.
Otherwise the platform rejects the promise with a `TypeError` and stores nothing. -/
def putAccepted (request : Request) (response : Response) : Bool :=
  (startsWith request.url.origin "http://" || startsWith request.url.origin "https://") &&
    request.method = "GET" && response.status ≠ 206 && !response.variesOnEverything

/-- Model of `cache.put(request, response)` run to completion: `none` when the promise
rejects, otherwise the store with the entry of the key overwritten. -/
def Cache.put (c : Cache) (request : Request) (response : Response) : Option Cache :=
  if putAccepted request response then
    some (c.filter (fun e => e.1 ≠ request) ++ [(request, response)])
  else
    none

/-- Model of `caches.match(request)`: the first hit over all stores, in order. -/
def cachesMatch (cs : CacheStorage) (request : Request) : Option Response :=
  cs.findSome? (fun s => s.2.matchRequest request)

/-- Model of `caches.open(name)`: creates the store when it is absent. -/
def cachesOpen (cs : CacheStorage) (cacheName : String) : CacheStorage :=
  if cs.any (fun s => s.1 = cacheName) then cs else cs ++ [(cacheName, [])]

/-- The effect on the storage of a completed `cache.put` on the store opened under
`cacheName`: a rejected put leaves the store as it is. -/
def cachesPut (cs : CacheStorage) (cacheName : String) (request : Request)
    (response : Response) : CacheStorage :=
  cs.map (fun s =>
    if s.1 = cacheName then (s.1, (s.2.put request response).getD s.2) else s)

/-- Model of `caches.keys()`. -/
def cachesKeys (cs : CacheStorage) : List String := cs.map (fun s => s.1)

/-- Model of `caches.delete(name)`. -/
def cachesDelete (cs : CacheStorage) (cacheName : String) : CacheStorage :=
  cs.filter (fun s => s.1 ≠ cacheName)

/-- The store named `cacheName`, when it exists. -/
def getStore (cs : CacheStorage) (cacheName : String) : Option Cache :=
  (cs.find? (fun s => s.1 = cacheName)).map (fun s => s.2)

/-- The platform calls a handler can make. -/
inductive Effect where
  | fetch (request : Request)
  | cachesMatch (request : Request)
  | cachesOpen (cacheName : String)
  | cachePut (cacheName : String) (request : Request) (response : Response)
  | cachesKeys
  | cachesDelete (cacheName : String)
deriving DecidableEq, Repr

/-- A `cache.put` that has been called and whose promise has not settled yet. -/
structure PendingPut where
  cacheName : String
  request : Request
  response : Response
deriving DecidableEq, Repr

structure World where
  caches : CacheStorage
  pending : List PendingPut
  trace : List Effect
deriving DecidableEq, Repr

def World.record (w : World) (e : Effect) : World := { w with trace := w.trace ++ [e] }

/-- The storage once the put `p` has run to completion. -/
def applyPut (cs : CacheStorage) (p : PendingPut) : CacheStorage :=
  cachesPut cs p.cacheName p.request p.response

/-- The world once every write in flight has completed, in the order of the calls. -/
def World.settle (w : World) : World :=
  { w with caches := w.pending.foldl applyPut w.caches, pending := [] }

abbrev Network := Request → Option Response

/-- The open-then-put sequence both strategies run on a successful response:
`await caches.open(cacheName)` has completed, `cache.put(request, response.clone())` has
been called and is not awaited. -/
def openAndPut (w : World) (cacheName : String) (request : Request) (response : Response) :
    World :=
  { caches := cachesOpen w.caches cacheName,
    pending := w.pending ++ [PendingPut.mk cacheName request response.clone],
    trace := w.trace ++ [.cachesOpen cacheName, .cachePut cacheName request response.clone] }

/-! ## The offline document -/

def OFFLINE_BODY : String :=
  "\n        <!DOCTYPE html>\n        <html lang=\"ru\">\n        <head>\n" ++
  "          <meta charset=\"UTF-8\">\n" ++
  "          <meta name=\"viewport\" content=\"width=device-width, initial-scale=1.0\">\n" ++
  "          <title>Офлайн - Teacher Tools</title>\n" ++
  "          <style>\n" ++
  "            body \x7b font-family: Arial, sans-serif; text-align: center; padding: 50px; \x7d\n" ++
  "            .offline-message \x7b max-width: 400px; margin: 0 auto; \x7d\n" ++
  "            .icon \x7b font-size: 64px; color: #667eea; margin-bottom: 20px; \x7d\n" ++
  "          </style>\n        </head>\n        <body>\n" ++
  "          <div class=\"offline-message\">\n" ++
  "            <div class=\"icon\">📱</div>\n" ++
  "            <h2>Нет подключения к интернету</h2>\n" ++
  "            <p>Приложение работает в офлайн режиме. Некоторые функции могут быть недоступны.</p>\n" ++
  "            <button onclick=\"window.location.reload()\">Попробовать снова</button>\n" ++
  "          </div>\n        </body>\n        </html>\n      "

/-- The response `networkFirst` builds for a page that is unavailable. -/
def offlineDocument : Response :=
  Response.new OFFLINE_BODY { status := none, headers := [("Content-Type", "text/html")] }

/-! ## Strategies -/

def cacheFirst (net : Network) (request : Request) (cacheName : String) (w : World) :
    Response × World :=
  let w1 := w.record (.cachesMatch request)
  match cachesMatch w.caches request with
  | some cachedResponse => (cachedResponse, w1)
  | none =>
    let w2 := w1.record (.fetch request)
    match net request with
    | some networkResponse =>
      if networkResponse.ok then
        (networkResponse, openAndPut w2 cacheName request networkResponse)
      else
        (networkResponse, w2)
    | none =>
      (Response.new "Offline content not available" { status := some 503, headers := [] }, w2)

def networkFirst (net : Network) (request : Request) (cacheName : String) (w : World) :
    Response × World :=
  let w1 := w.record (.fetch request)
  match net request with
  | some networkResponse =>
    if networkResponse.ok then
      (networkResponse, openAndPut w1 cacheName request networkResponse)
    else
      (networkResponse, w1)
  | none =>
    let w2 := w1.record (.cachesMatch request)
    match cachesMatch w.caches request with
    | some cachedResponse => (cachedResponse, w2)
    | none =>
      if isPageRequest request.url.pathname then
        (offlineDocument, w2)
      else
        (Response.new "Content not available offline" { status := some 503, headers := [] }, w2)

/-! ## Event handlers -/

/-- The `fetch` event handler. The first component is the response handed to
`event.respondWith`, `none` when the handler returns without calling it. -/
def onFetch (net : Network) (request : Request) (w : World) : Option Response × World :=
  let url := request.url
  if request.method ≠ "GET" then
    (none, w)
  else if isStaticFile url.pathname then
    let r := cacheFirst net request STATIC_CACHE w
    (some r.1, r.2)
  else if isAPIRequest url.pathname then
    let r := networkFirst net request DYNAMIC_CACHE w
    (some r.1, r.2)
  else if isPageRequest url.pathname then
    let r := networkFirst net request DYNAMIC_CACHE w
    (some r.1, r.2)
  else
    let r := networkFirst net request DYNAMIC_CACHE w
    (some r.1, r.2)

/-- The body of the `cacheNames.map` callback of the `activate` handler. -/
def activateStep (w : World) (cacheName : String) : World :=
  if cacheName ≠ STATIC_CACHE ∧ cacheName ≠ DYNAMIC_CACHE then
    { w with
      caches := cachesDelete w.caches cacheName,
      trace := w.trace ++ [.cachesDelete cacheName] }
  else
    w

/-- The `activate` event handler, up to `clients.claim()`, which touches no store. -/
def onActivate (w : World) : World :=
  let cacheNames := cachesKeys w.caches
  cacheNames.foldl activateStep (w.record .cachesKeys)

/-- Number of network fetches in a trace. -/
def fetchCount (t : List Effect) : Nat :=
  t.countP (fun e => match e with | .fetch _ => true | _ => false)

/-- The store writes (`cache.put`) of a trace. -/
def putsOf (t : List Effect) : List Effect :=
  t.filter (fun e => match e with | .cachePut _ _ _ => true | _ => false)

/-- The request an effect reads or writes a store under, when it has one. -/
def Effect.key? : Effect → Option Request
  | .cachesMatch r => some r
  | .cachePut _ r _ => some r
  | _ => none

/-! ## Sample inputs -/

def sampleOrigin : String := "https://teacher.example"

def scheduleRequest : Request :=
  { method := "GET", url := { origin := sampleOrigin, pathname := "/api/schedule/events", search := "" } }

def dashboardRequest : Request :=
  { method := "GET", url := { origin := sampleOrigin, pathname := "/dashboard/", search := "" } }

def styleRequest : Request :=
  { method := "GET", url := { origin := sampleOrigin, pathname := "/static/css/style.css", search := "" } }

def submitRequest : Request :=
  { method := "POST", url := { origin := sampleOrigin, pathname := "/api/assignments", search := "" } }

def okResponse : Response :=
  { status := 200, headers := [("Content-Type", "application/json")], body := "[]" }

def notFoundResponse : Response :=
  { status := 404, headers := [("Content-Type", "text/plain")], body := "Not Found" }

def cssResponse : Response :=
  { status := 200, headers := [("Content-Type", "text/css")], body := "h1 \x7b margin: 0 \x7d" }

def mediaRequest : Request :=
  { method := "GET", url := { origin := sampleOrigin, pathname := "/media/lesson.mp4", search := "" } }

/-- A successful answer to a range request: status 206, so `ok`, which `cache.put` refuses. -/
def partialResponse : Response :=
  { status := 206, headers := [("Content-Range", "bytes 0-3/10")], body := "abcd" }

/-- A network on which every fetch rejects. -/
def networkDown : Network := fun _ => none

/-- A storage whose two current stores exist and answer only the style sheet request. -/
def sampleWorld : World :=
  { caches := [(STATIC_CACHE, [(styleRequest, cssResponse)]), (DYNAMIC_CACHE, [])],
    pending := [], trace := [] }

/-- A storage with both current stores empty and one store of an older generation. -/
def staleWorld : World :=
  { caches := [("static-cache-v0", [(styleRequest, cssResponse)]), (STATIC_CACHE, []),
      (DYNAMIC_CACHE, [])],
    pending := [], trace := [] }

/-- The designated (static) store is empty, the dynamic store answers the request. -/
def crossWorld : World :=
  { caches := [(STATIC_CACHE, []), (DYNAMIC_CACHE, [(styleRequest, cssResponse)])],
    pending := [], trace := [] }

def emptyWorld : World := { caches := [], pending := [], trace := [] }

/-! ## Classifier lemmas -/

theorem startsWith_weaken {s p q : String} (hpq : startsWith q p = true)
    (h : startsWith s q = true) : startsWith s p = true := by
  unfold startsWith at *
  rw [List.isPrefixOf_iff_prefix] at *
  exact hpq.trans h

theorem apiPattern_startsWith (pathname : String)
    (h : API_CACHE_PATTERNS.any (fun pattern => pattern.test pathname) = true) :
    startsWith pathname "/api/" = true := by
  simp only [API_CACHE_PATTERNS, List.any_cons, List.any_nil, Bool.or_false, Bool.or_eq_true,
    Pattern.test] at h
  rcases h with h | h | h
  · exact startsWith_weaken (by decide) h
  · exact startsWith_weaken (by decide) h
  · exact startsWith_weaken (by decide) h

theorem classify_eq_Page_iff (pathname : String) :
    classify pathname = .Page ↔
      isStaticFile pathname = false ∧ isAPIRequest pathname = false ∧
        isPageRequest pathname = true := by
  unfold classify
  cases isStaticFile pathname <;> cases isAPIRequest pathname <;>
    cases isPageRequest pathname <;> simp

theorem classify_eq_Static_iff (pathname : String) :
    classify pathname = .Static ↔ isStaticFile pathname = true := by
  unfold classify
  cases isStaticFile pathname <;> cases isAPIRequest pathname <;>
    cases isPageRequest pathname <;> simp

/-- Every branch of the handler but the first runs `networkFirst` on the dynamic store. -/
theorem onFetch_of_not_static (net : Network) (request : Request) (w : World)
    (hget : request.method = "GET") (hs : isStaticFile request.url.pathname = false) :
    onFetch net request w =
      (some (networkFirst net request DYNAMIC_CACHE w).1,
        (networkFirst net request DYNAMIC_CACHE w).2) := by
  unfold onFetch
  simp only [hget, hs, ne_eq, not_true_eq_false, if_false, Bool.false_eq_true]
  split_ifs <;> rfl

theorem onFetch_of_static (net : Network) (request : Request) (w : World)
    (hget : request.method = "GET") (hs : isStaticFile request.url.pathname = true) :
    onFetch net request w =
      (some (cacheFirst net request STATIC_CACHE w).1,
        (cacheFirst net request STATIC_CACHE w).2) := by
  unfold onFetch
  simp only [hget, hs, ne_eq, not_true_eq_false, if_false, if_true]

/-! ## Store lemmas -/

theorem cachesMatch_eq_none_iff (cs : CacheStorage) (request : Request) :
    cachesMatch cs request = none ↔ ∀ s ∈ cs, s.2.matchRequest request = none := by
  unfold cachesMatch
  induction cs with
  | nil => simp
  | cons s cs ih =>
    simp only [List.findSome?_cons, List.mem_cons, forall_eq_or_imp]
    cases hs : s.2.matchRequest request with
    | none => simp [ih]
    | some r => simp

theorem cachesMatch_some_mem (cs : CacheStorage) (request : Request) (r : Response)
    (h : cachesMatch cs request = some r) : ∃ s ∈ cs, s.2.matchRequest request = some r := by
  unfold cachesMatch at h
  induction cs with
  | nil => simp at h
  | cons s cs ih =>
    simp only [List.findSome?_cons] at h
    cases hs : s.2.matchRequest request with
    | none =>
      rw [hs] at h
      obtain ⟨t, ht, htr⟩ := ih h
      exact ⟨t, List.mem_cons_of_mem _ ht, htr⟩
    | some r' =>
      rw [hs] at h
      simp only [Option.some.injEq] at h
      exact ⟨s, List.mem_cons_self _ _, by rw [hs, h]⟩

theorem put_of_accepted (c : Cache) (request : Request) (response : Response)
    (h : putAccepted request response = true) :
    c.put request response =
      some (c.filter (fun e => e.1 ≠ request) ++ [(request, response)]) := by
  simp [Cache.put, h]

theorem put_of_rejected (c : Cache) (request : Request) (response : Response)
    (h : putAccepted request response = false) : c.put request response = none := by
  simp [Cache.put, h]

theorem matchRequest_put (c : Cache) (request : Request) (response : Response)
    (hacc : putAccepted request response = true) :
    ((c.put request response).getD c).matchRequest request = some response := by
  rw [put_of_accepted c request response hacc, Option.getD_some]
  unfold Cache.matchRequest
  have h : (c.filter (fun e => e.1 ≠ request)).find? (fun e => e.1 = request) = none := by
    rw [List.find?_eq_none]
    intro e he
    simp only [List.mem_filter, decide_eq_true_eq] at he
    simpa using he.2
  rw [List.find?_append, h]
  simp

/-- A put under another key does not change what a store answers for `request`. -/
theorem matchRequest_put_of_ne (c : Cache) (other request : Request) (response : Response)
    (hne : other ≠ request) :
    ((c.put other response).getD c).matchRequest request = c.matchRequest request := by
  cases hacc : putAccepted other response with
  | false => rw [put_of_rejected c other response hacc, Option.getD_none]
  | true =>
    rw [put_of_accepted c other response hacc, Option.getD_some]
    unfold Cache.matchRequest
    congr 1
    rw [List.find?_append]
    have hlast : [(other, response)].find? (fun e => decide (e.1 = request)) = none := by
      simp [hne]
    rw [hlast, Option.or_none]
    induction c with
    | nil => rfl
    | cons e c ih =>
      by_cases he : e.1 = request
      · have heo : ¬ e.1 = other := fun h => hne (h.symm.trans he)
        have hro : ¬ request = other := fun h => hne h.symm
        simp [List.filter_cons, heo, List.find?_cons, he, hro]
      · by_cases heo : e.1 = other
        · simp only [List.filter_cons, heo, ne_eq, not_true_eq_false, decide_False,
            Bool.false_eq_true, if_false, List.find?_cons, hne]
          simp only [heo] at he
          exact ih
        · simp only [List.filter_cons, heo, ne_eq, not_false_eq_true, decide_True, if_true,
            List.find?_cons, he, decide_False]
          exact ih

theorem cachesPut_of_rejected (cs : CacheStorage) (n : String) (request : Request)
    (response : Response) (hrej : putAccepted request response = false) :
    cachesPut cs n request response = cs := by
  unfold cachesPut
  induction cs with
  | nil => rfl
  | cons s cs ih =>
    rw [List.map_cons, ih, put_of_rejected s.2 request response hrej]
    by_cases hs : s.1 = n
    · subst hs
      simp
    · simp [hs]

theorem getStore_cachesPut (cs : CacheStorage) (n m : String) (request : Request)
    (response : Response) :
    getStore (cachesPut cs n request response) m =
      if m = n then (getStore cs n).map (fun c => (c.put request response).getD c)
      else getStore cs m := by
  unfold getStore cachesPut
  induction cs with
  | nil => simp
  | cons s cs ih =>
    by_cases hm : m = n
    · subst hm
      simp only [if_true] at ih ⊢
      by_cases hs : s.1 = m
      · simp [List.find?_cons, hs]
      · simp only [List.map_cons, hs, if_false, List.find?_cons, decide_False]
        exact ih
    · simp only [hm, if_false] at ih ⊢
      by_cases hs : s.1 = n
      · have hsm : ¬ s.1 = m := fun h => hm (h.symm.trans hs)
        simp only [List.map_cons, hs, if_true, List.find?_cons]
        simp only [hs] at hsm
        simp only [hsm, decide_False]
        exact ih
      · simp only [List.map_cons, hs, if_false, List.find?_cons]
        by_cases hsm : s.1 = m
        · simp [hsm]
        · simp only [hsm, decide_False]
          exact ih

theorem getStore_of_any (cs : CacheStorage) (n : String)
    (h : cs.any (fun s => decide (s.1 = n)) = true) : ∃ c, getStore cs n = some c := by
  unfold getStore
  have h2 : (cs.find? (fun s => decide (s.1 = n))).isSome = true := by
    rw [List.find?_isSome]
    simpa using h
  obtain ⟨s, hs⟩ := Option.isSome_iff_exists.mp h2
  exact ⟨s.2, by rw [hs]; rfl⟩

theorem cachesOpen_any (cs : CacheStorage) (n : String) :
    (cachesOpen cs n).any (fun s => decide (s.1 = n)) = true := by
  unfold cachesOpen
  split_ifs with h
  · exact h
  · simp

theorem getStore_cachesOpen_self (cs : CacheStorage) (n : String) :
    ∃ c, getStore (cachesOpen cs n) n = some c :=
  getStore_of_any _ _ (cachesOpen_any cs n)

theorem getStore_cachesOpen_of_ne (cs : CacheStorage) (n m : String) (hm : m ≠ n) :
    getStore (cachesOpen cs n) m = getStore cs m := by
  unfold cachesOpen getStore
  split_ifs with h
  · rfl
  · rw [List.find?_append]
    have : ¬ n = m := fun h => hm h.symm
    cases cs.find? (fun s => decide (s.1 = m)) <;> simp [this]

/-- Opening a store changes no answer: the store it may create is empty. -/
theorem cachesOpen_miss (cs : CacheStorage) (n : String) (request : Request)
    (hmiss : ∀ s ∈ cs, s.2.matchRequest request = none) :
    ∀ s ∈ cachesOpen cs n, s.2.matchRequest request = none := by
  intro s hs
  unfold cachesOpen at hs
  split_ifs at hs with h
  · exact hmiss s hs
  · rcases List.mem_append.mp hs with h1 | h1
    · exact hmiss s h1
    · simp only [List.mem_singleton] at h1
      subst h1
      rfl

theorem cachesPut_any (cs : CacheStorage) (n m : String) (request : Request)
    (response : Response) :
    (cachesPut cs n request response).any (fun s => decide (s.1 = m)) =
      cs.any (fun s => decide (s.1 = m)) := by
  unfold cachesPut
  induction cs with
  | nil => rfl
  | cons s cs ih =>
    rw [List.map_cons, List.any_cons, List.any_cons, ih]
    by_cases hs : s.1 = n <;> simp [hs]

theorem foldl_applyPut_any (ps : List PendingPut) (cs : CacheStorage) (m : String) :
    (ps.foldl applyPut cs).any (fun s => decide (s.1 = m)) =
      cs.any (fun s => decide (s.1 = m)) := by
  induction ps generalizing cs with
  | nil => rfl
  | cons p ps ih =>
    rw [List.foldl_cons, ih]
    exact cachesPut_any cs p.cacheName m p.request p.response

theorem cachesPut_miss_of_ne (cs : CacheStorage) (n : String) (other request : Request)
    (response : Response) (hne : other ≠ request)
    (hmiss : ∀ s ∈ cs, s.2.matchRequest request = none) :
    ∀ s ∈ cachesPut cs n other response, s.2.matchRequest request = none := by
  intro s hs
  unfold cachesPut at hs
  obtain ⟨t, ht, rfl⟩ := List.mem_map.mp hs
  by_cases htn : t.1 = n
  · simp only [htn, if_true]
    rw [matchRequest_put_of_ne t.2 other request response hne]
    exact hmiss t ht
  · simp only [htn, if_false]
    exact hmiss t ht

theorem foldl_applyPut_miss (ps : List PendingPut) (cs : CacheStorage) (request : Request)
    (hps : ∀ p ∈ ps, p.request ≠ request)
    (hmiss : ∀ s ∈ cs, s.2.matchRequest request = none) :
    ∀ s ∈ ps.foldl applyPut cs, s.2.matchRequest request = none := by
  induction ps generalizing cs with
  | nil => exact hmiss
  | cons p ps ih =>
    rw [List.foldl_cons]
    apply ih _ (fun q hq => hps q (List.mem_cons_of_mem _ hq))
    exact cachesPut_miss_of_ne cs p.cacheName p.request request p.response
      (hps p (List.mem_cons_self _ _)) hmiss

/-- Once an accepted put has completed on an existing store, that store maps the request
to the response. -/
theorem getStore_cachesPut_self (cs : CacheStorage) (n : String) (request : Request)
    (response : Response) (hacc : putAccepted request response = true)
    (hex : cs.any (fun s => decide (s.1 = n)) = true) :
    (getStore (cachesPut cs n request response) n).bind
      (fun c => c.matchRequest request) = some response := by
  rw [getStore_cachesPut, if_pos rfl]
  obtain ⟨c, hc⟩ := getStore_of_any cs n hex
  rw [hc]
  simp [matchRequest_put c request response hacc]

theorem cachesMatch_cachesPut_of_miss (cs : CacheStorage) (n : String) (request : Request)
    (response : Response) (hacc : putAccepted request response = true)
    (hmiss : ∀ s ∈ cs, s.2.matchRequest request = none) :
    cachesMatch (cachesPut cs n request response) request =
      if cs.any (fun s => s.1 = n) then some response else none := by
  unfold cachesMatch cachesPut
  induction cs with
  | nil => simp
  | cons s cs ih =>
    have ih2 := ih (fun t ht => hmiss t (List.mem_cons_of_mem _ ht))
    have hs := hmiss s (List.mem_cons_self _ _)
    by_cases hn : s.1 = n
    · simp [List.findSome?_cons, hn, matchRequest_put s.2 request response hacc]
    · simp only [List.map_cons, hn, if_false, List.findSome?_cons, hs, List.any_cons,
        decide_False, Bool.false_or]
      exact ih2

/-- The storage after the writes in flight of `openAndPut` have completed. -/
theorem settle_openAndPut_caches (w : World) (n : String) (request : Request)
    (response : Response) :
    (openAndPut w n request response).settle.caches =
      cachesPut (w.pending.foldl applyPut (cachesOpen w.caches n)) n request response := by
  simp [World.settle, openAndPut, List.foldl_append, applyPut, Response.clone]

/-- Once the put of `openAndPut` has completed, and was accepted, the designated store maps
the request to the response. -/
theorem getStore_settle_openAndPut (w : World) (n : String) (request : Request)
    (response : Response) (hacc : putAccepted request response = true) :
    (getStore (openAndPut w n request response).settle.caches n).bind
      (fun c => c.matchRequest request) = some response := by
  rw [settle_openAndPut_caches]
  apply getStore_cachesPut_self _ _ _ _ hacc
  rw [foldl_applyPut_any]
  exact cachesOpen_any w.caches n

/-- A request no store answers, and for which no write is in flight, is answered by the
response just written once the put of `openAndPut` has completed, if it was accepted. -/
theorem cachesMatch_settle_openAndPut (w : World) (n : String) (request : Request)
    (response : Response) (hacc : putAccepted request response = true)
    (hps : ∀ p ∈ w.pending, p.request ≠ request)
    (hmiss : ∀ s ∈ w.caches, s.2.matchRequest request = none) :
    cachesMatch (openAndPut w n request response).settle.caches request = some response := by
  rw [settle_openAndPut_caches]
  have hmiss2 := foldl_applyPut_miss w.pending (cachesOpen w.caches n) request hps
    (cachesOpen_miss w.caches n request hmiss)
  have hany : (w.pending.foldl applyPut (cachesOpen w.caches n)).any
      (fun s => decide (s.1 = n)) = true := by
    rw [foldl_applyPut_any]
    exact cachesOpen_any w.caches n
  rw [cachesMatch_cachesPut_of_miss _ _ _ _ hacc hmiss2, if_pos hany]

/-! ## Trace lemmas -/

theorem fetchCount_append (t u : List Effect) :
    fetchCount (t ++ u) = fetchCount t + fetchCount u := by
  simp [fetchCount, List.countP_append]

theorem putsOf_append (t u : List Effect) : putsOf (t ++ u) = putsOf t ++ putsOf u := by
  simp [putsOf]

/-! ## Activation lemmas -/

theorem foldl_activateStep_caches (names : List String) (w : World) :
    (names.foldl activateStep w).caches =
      w.caches.filter
        (fun s => decide ((s.1 = STATIC_CACHE ∨ s.1 = DYNAMIC_CACHE) ∨ s.1 ∉ names)) := by
  induction names generalizing w with
  | nil => simp
  | cons n ns ih =>
    rw [List.foldl_cons, ih]
    unfold activateStep
    split_ifs with h
    · simp only [cachesDelete, List.filter_filter]
      apply List.filter_congr
      intro s _
      by_cases hsn : s.1 = n
      · simp [hsn, h.1, h.2]
      · simp [hsn]
    · apply List.filter_congr
      intro s _
      by_cases hsn : s.1 = n
      · have hn : n = STATIC_CACHE ∨ n = DYNAMIC_CACHE := by
          by_contra hc
          exact h ⟨fun h1 => hc (Or.inl h1), fun h2 => hc (Or.inr h2)⟩
        simp [hsn, hn]
      · simp [hsn]

theorem foldl_activateStep_trace (names : List String) (w : World) :
    (names.foldl activateStep w).trace =
      w.trace ++ (names.filter
        (fun n => decide (n ≠ STATIC_CACHE ∧ n ≠ DYNAMIC_CACHE))).map Effect.cachesDelete := by
  induction names generalizing w with
  | nil => simp
  | cons n ns ih =>
    rw [List.foldl_cons, ih]
    unfold activateStep
    split_ifs with h
    · simp [List.filter_cons, h.1, h.2]
    · have hd : decide (n ≠ STATIC_CACHE ∧ n ≠ DYNAMIC_CACHE) = false := by simpa using h
      simp only [List.filter_cons, hd]
      simp

/-- Activation on a storage with one store of an older generation drops that store only. -/
theorem onActivate_staleWorld :
    (onActivate staleWorld).caches = [(STATIC_CACHE, []), (DYNAMIC_CACHE, [])] ∧
      (onActivate staleWorld).trace = [.cachesKeys, .cachesDelete "static-cache-v0"] := by
  refine ⟨by decide, by decide⟩

/-! ## The strategies, path by path -/

theorem cacheFirst_hit (net : Network) (request : Request) (cacheName : String) (w : World)
    (r : Response) (h : cachesMatch w.caches request = some r) :
    cacheFirst net request cacheName w = (r, w.record (.cachesMatch request)) := by
  simp only [cacheFirst, h]

theorem cacheFirst_miss_ok (net : Network) (request : Request) (cacheName : String) (w : World)
    (r : Response) (h : cachesMatch w.caches request = none) (hnet : net request = some r)
    (hok : r.ok = true) :
    cacheFirst net request cacheName w =
      (r, openAndPut ((w.record (.cachesMatch request)).record (.fetch request))
        cacheName request r) := by
  simp only [cacheFirst, h, hnet, hok, if_true]

theorem cacheFirst_miss_not_ok (net : Network) (request : Request) (cacheName : String)
    (w : World) (r : Response) (h : cachesMatch w.caches request = none)
    (hnet : net request = some r) (hok : r.ok = false) :
    cacheFirst net request cacheName w =
      (r, (w.record (.cachesMatch request)).record (.fetch request)) := by
  simp only [cacheFirst, h, hnet, hok, Bool.false_eq_true, if_false]

theorem cacheFirst_miss_fail (net : Network) (request : Request) (cacheName : String)
    (w : World) (h : cachesMatch w.caches request = none) (hnet : net request = none) :
    cacheFirst net request cacheName w =
      (Response.new "Offline content not available" { status := some 503, headers := [] },
        (w.record (.cachesMatch request)).record (.fetch request)) := by
  simp only [cacheFirst, h, hnet]

theorem networkFirst_ok (net : Network) (request : Request) (cacheName : String) (w : World)
    (r : Response) (hnet : net request = some r) (hok : r.ok = true) :
    networkFirst net request cacheName w =
      (r, openAndPut (w.record (.fetch request)) cacheName request r) := by
  simp only [networkFirst, hnet, hok, if_true]

theorem networkFirst_not_ok (net : Network) (request : Request) (cacheName : String)
    (w : World) (r : Response) (hnet : net request = some r) (hok : r.ok = false) :
    networkFirst net request cacheName w = (r, w.record (.fetch request)) := by
  simp only [networkFirst, hnet, hok, Bool.false_eq_true, if_false]

theorem networkFirst_fail_hit (net : Network) (request : Request) (cacheName : String)
    (w : World) (r : Response) (hnet : net request = none)
    (h : cachesMatch w.caches request = some r) :
    networkFirst net request cacheName w =
      (r, (w.record (.fetch request)).record (.cachesMatch request)) := by
  simp only [networkFirst, hnet, h]

theorem networkFirst_fail_miss (net : Network) (request : Request) (cacheName : String)
    (w : World) (hnet : net request = none) (h : cachesMatch w.caches request = none) :
    networkFirst net request cacheName w =
      (if isPageRequest request.url.pathname then offlineDocument
        else Response.new "Content not available offline" { status := some 503, headers := [] },
        (w.record (.fetch request)).record (.cachesMatch request)) := by
  simp only [networkFirst, hnet, h]
  split_ifs <;> rfl

/-- Every store key a strategy touches is the request it was called with. -/
theorem cacheFirst_trace_keys (net : Network) (request : Request) (cacheName : String)
    (w : World) :
    ∃ ext, (cacheFirst net request cacheName w).2.trace = w.trace ++ ext ∧
      ∀ e ∈ ext, ∀ k, e.key? = some k → k = request := by
  cases h : cachesMatch w.caches request with
  | some r =>
    rw [cacheFirst_hit net request cacheName w r h]
    exact ⟨[.cachesMatch request], rfl, by simp [Effect.key?, eq_comm]⟩
  | none =>
    cases hnet : net request with
    | none =>
      rw [cacheFirst_miss_fail net request cacheName w h hnet]
      exact ⟨[.cachesMatch request, .fetch request], by simp [World.record],
        by simp [Effect.key?, eq_comm]⟩
    | some r =>
      cases hok : r.ok with
      | false =>
        rw [cacheFirst_miss_not_ok net request cacheName w r h hnet hok]
        exact ⟨[.cachesMatch request, .fetch request], by simp [World.record],
          by simp [Effect.key?, eq_comm]⟩
      | true =>
        rw [cacheFirst_miss_ok net request cacheName w r h hnet hok]
        exact ⟨[.cachesMatch request, .fetch request, .cachesOpen cacheName,
          .cachePut cacheName request r.clone], by simp [World.record, openAndPut],
          by simp [Effect.key?, eq_comm]⟩

theorem networkFirst_trace_keys (net : Network) (request : Request) (cacheName : String)
    (w : World) :
    ∃ ext, (networkFirst net request cacheName w).2.trace = w.trace ++ ext ∧
      ∀ e ∈ ext, ∀ k, e.key? = some k → k = request := by
  cases hnet : net request with
  | some r =>
    cases hok : r.ok with
    | false =>
      rw [networkFirst_not_ok net request cacheName w r hnet hok]
      exact ⟨[.fetch request], rfl, by simp [Effect.key?]⟩
    | true =>
      rw [networkFirst_ok net request cacheName w r hnet hok]
      exact ⟨[.fetch request, .cachesOpen cacheName, .cachePut cacheName request r.clone],
        by simp [World.record, openAndPut], by simp [Effect.key?, eq_comm]⟩
  | none =>
    cases h : cachesMatch w.caches request with
    | some r =>
      rw [networkFirst_fail_hit net request cacheName w r hnet h]
      exact ⟨[.fetch request, .cachesMatch request], by simp [World.record],
        by simp [Effect.key?, eq_comm]⟩
    | none =>
      rw [networkFirst_fail_miss net request cacheName w hnet h]
      exact ⟨[.fetch request, .cachesMatch request], by simp [World.record],
        by simp [Effect.key?, eq_comm]⟩

/-! ## The claims -/

/-- C1, at the failing input. The path `/api/schedule/events` is classified API, none of
the stores holds an entry and the network is down, yet the handler answers with the offline
HTML document, status 200, and not with a 503 response: `networkFirst` asks `isPageRequest`
alone, which holds of every path without a dot. -/
theorem onFetch_api_schedule_events_offline :
    classify scheduleRequest.url.pathname = ResourceClass.API ∧
      isPageRequest scheduleRequest.url.pathname = true ∧
      cachesMatch emptyWorld.caches scheduleRequest = none ∧
      (onFetch networkDown scheduleRequest emptyWorld).1 = some offlineDocument ∧
      offlineDocument.status = 200 ∧
      offlineDocument.header "Content-Type" = some "text/html" := by
  refine ⟨by decide, by decide, rfl, rfl, rfl, rfl⟩

/-- C2. For a GET request whose path is classified Page, when the network fetch rejects
and no store holds an entry for the request, `networkFirst` (whatever store it is given)
and the `fetch` handler return the offline document: a constant, of status 200, whose
`Content-Type` is `text/html` and whose body is the fixed text `OFFLINE_BODY`. -/
theorem networkFirst_page_offline (net : Network) (request : Request) (cacheName : String)
    (w : World) (hget : request.method = "GET")
    (hpage : classify request.url.pathname = ResourceClass.Page)
    (hnet : net request = none)
    (hmiss : ∀ s ∈ w.caches, s.2.matchRequest request = none) :
    (networkFirst net request cacheName w).1 = offlineDocument ∧
      (onFetch net request w).1 = some offlineDocument ∧
      offlineDocument.status = 200 ∧
      offlineDocument.header "Content-Type" = some "text/html" ∧
      offlineDocument.body = OFFLINE_BODY := by
  obtain ⟨hs, _, hp⟩ := (classify_eq_Page_iff _).mp hpage
  have hm : cachesMatch w.caches request = none := (cachesMatch_eq_none_iff _ _).mpr hmiss
  have key : ∀ n, (networkFirst net request n w).1 = offlineDocument := by
    intro n
    rw [networkFirst_fail_miss net request n w hnet hm, hp]
    rfl
  refine ⟨key cacheName, ?_, rfl, rfl, rfl⟩
  rw [onFetch_of_not_static net request w hget hs, key]

theorem networkFirst_page_offline_witness :
    (dashboardRequest.method = "GET" ∧
      classify dashboardRequest.url.pathname = ResourceClass.Page ∧
      networkDown dashboardRequest = none ∧
      ∀ s ∈ sampleWorld.caches, s.2.matchRequest dashboardRequest = none) ∧
    ((networkFirst networkDown dashboardRequest DYNAMIC_CACHE sampleWorld).1 = offlineDocument ∧
      (onFetch networkDown dashboardRequest sampleWorld).1 = some offlineDocument ∧
      offlineDocument.status = 200 ∧
      offlineDocument.header "Content-Type" = some "text/html" ∧
      offlineDocument.body = OFFLINE_BODY) :=
  ⟨⟨rfl, by decide, rfl, by decide⟩,
    networkFirst_page_offline networkDown dashboardRequest DYNAMIC_CACHE sampleWorld rfl
      (by decide) rfl (by decide)⟩

/-- C3, refuted as stated: the network answers 404, and `networkFirst` returns that
response but writes nothing, the storage stays empty, no write is in flight and the trace
holds no `cache.put`. -/
theorem networkFirst_404_not_written :
    (networkFirst (fun _ => some notFoundResponse) scheduleRequest DYNAMIC_CACHE emptyWorld).1
        = notFoundResponse ∧
      (networkFirst (fun _ => some notFoundResponse) scheduleRequest DYNAMIC_CACHE
        emptyWorld).2.caches = [] ∧
      (networkFirst (fun _ => some notFoundResponse) scheduleRequest DYNAMIC_CACHE
        emptyWorld).2.pending = [] ∧
      putsOf (networkFirst (fun _ => some notFoundResponse) scheduleRequest DYNAMIC_CACHE
        emptyWorld).2.trace = [] := by
  refine ⟨rfl, rfl, rfl, rfl⟩

/-- C3, amended. `networkFirst` filters its store write by status just as `cacheFirst`
does. For every request and every response `r` the network resolves with, `networkFirst`
returns `r`. When `r` is ok it opens the designated store and calls `cache.put` with a clone
of `r` under the request, without awaiting it: at return the write is in flight and no entry
has changed; once it has completed the designated store maps the request to `r` if the
platform accepted the put, and nothing of it is stored if the platform refused it. When `r`
is not ok, `networkFirst` only fetches: no store is opened, no put is called. `cacheFirst`
on a miss calls the same put when `r` is ok, and calls none when `r` is not ok. -/
theorem networkFirst_writes_iff_ok (net : Network) (request : Request) (cacheName : String)
    (w : World) (r : Response) (hnet : net request = some r) :
    (networkFirst net request cacheName w).1 = r ∧
      (r.ok = true →
        (networkFirst net request cacheName w).2.caches = cachesOpen w.caches cacheName ∧
          (networkFirst net request cacheName w).2.pending =
            w.pending ++ [PendingPut.mk cacheName request r.clone] ∧
          (networkFirst net request cacheName w).2.trace =
            w.trace ++ [.fetch request, .cachesOpen cacheName,
              .cachePut cacheName request r.clone] ∧
          (putAccepted request r = true →
            (getStore (networkFirst net request cacheName w).2.settle.caches cacheName).bind
              (fun c => c.matchRequest request) = some r) ∧
          (putAccepted request r = false →
            (networkFirst net request cacheName w).2.settle.caches =
              w.pending.foldl applyPut (cachesOpen w.caches cacheName))) ∧
      (r.ok = false →
        networkFirst net request cacheName w = (r, w.record (.fetch request)) ∧
          (networkFirst net request cacheName w).2.caches = w.caches ∧
          (networkFirst net request cacheName w).2.pending = w.pending ∧
          (networkFirst net request cacheName w).2.trace = w.trace ++ [.fetch request]) ∧
      (r.ok = true → cachesMatch w.caches request = none →
        (cacheFirst net request cacheName w).2.pending =
            w.pending ++ [PendingPut.mk cacheName request r.clone] ∧
          putsOf (cacheFirst net request cacheName w).2.trace =
            putsOf w.trace ++ [.cachePut cacheName request r.clone]) ∧
      (r.ok = false →
        (cacheFirst net request cacheName w).2.caches = w.caches ∧
          (cacheFirst net request cacheName w).2.pending = w.pending ∧
          putsOf (cacheFirst net request cacheName w).2.trace = putsOf w.trace) := by
  refine ⟨?_, ?_, ?_, ?_, ?_⟩
  · cases hok : r.ok with
    | false => rw [networkFirst_not_ok net request cacheName w r hnet hok]
    | true => rw [networkFirst_ok net request cacheName w r hnet hok]
  · intro hok
    rw [networkFirst_ok net request cacheName w r hnet hok]
    refine ⟨rfl, rfl, by simp [openAndPut, World.record], ?_, ?_⟩
    · intro hacc
      exact getStore_settle_openAndPut (w.record (.fetch request)) cacheName request r hacc
    · intro hrej
      have h := settle_openAndPut_caches (w.record (.fetch request)) cacheName request r
      rw [cachesPut_of_rejected _ _ _ _ hrej] at h
      exact h
  · intro hok
    rw [networkFirst_not_ok net request cacheName w r hnet hok]
    exact ⟨rfl, rfl, rfl, rfl⟩
  · intro hok hm
    rw [cacheFirst_miss_ok net request cacheName w r hm hnet hok]
    exact ⟨rfl, by simp [openAndPut, World.record, putsOf]⟩
  · intro hok
    cases hm : cachesMatch w.caches request with
    | some c =>
      rw [cacheFirst_hit net request cacheName w c hm]
      exact ⟨rfl, rfl, by simp [World.record, putsOf]⟩
    | none =>
      rw [cacheFirst_miss_not_ok net request cacheName w r hm hnet hok]
      exact ⟨rfl, rfl, by simp [World.record, putsOf]⟩

theorem networkFirst_writes_iff_ok_witness :
    (fun _ => some notFoundResponse : Network) dashboardRequest = some notFoundResponse ∧
      (networkFirst (fun _ => some notFoundResponse) dashboardRequest DYNAMIC_CACHE
        sampleWorld).1 = notFoundResponse ∧
      (notFoundResponse.ok = false →
        networkFirst (fun _ => some notFoundResponse) dashboardRequest DYNAMIC_CACHE
            sampleWorld = (notFoundResponse, sampleWorld.record (.fetch dashboardRequest)) ∧
          (networkFirst (fun _ => some notFoundResponse) dashboardRequest DYNAMIC_CACHE
            sampleWorld).2.caches = sampleWorld.caches ∧
          (networkFirst (fun _ => some notFoundResponse) dashboardRequest DYNAMIC_CACHE
            sampleWorld).2.pending = sampleWorld.pending ∧
          (networkFirst (fun _ => some notFoundResponse) dashboardRequest DYNAMIC_CACHE
            sampleWorld).2.trace = sampleWorld.trace ++ [.fetch dashboardRequest]) :=
  ⟨rfl,
    (networkFirst_writes_iff_ok (fun _ => some notFoundResponse) dashboardRequest DYNAMIC_CACHE
      sampleWorld notFoundResponse rfl).1,
    (networkFirst_writes_iff_ok (fun _ => some notFoundResponse) dashboardRequest DYNAMIC_CACHE
      sampleWorld notFoundResponse rfl).2.2.1⟩

/-- C4, refuted as stated. The network answers the GET of `/api/schedule/events` with an
ok response and the handler responds with it, but at the point of return the dynamic store
holds no entry for the request: the put is in flight. And for the ok answer 206 to the GET of
`/media/lesson.mp4` no store holds an entry even once the put has settled: the platform
refuses it. -/
theorem onFetch_ok_not_written_at_return :
    (onFetch (fun _ => some okResponse) scheduleRequest sampleWorld).1 = some okResponse ∧
      (getStore (onFetch (fun _ => some okResponse) scheduleRequest sampleWorld).2.caches
        DYNAMIC_CACHE).bind (fun c => c.matchRequest scheduleRequest) = none ∧
      (classify mediaRequest.url.pathname = ResourceClass.Other ∧
        partialResponse.ok = true) ∧
      (onFetch (fun _ => some partialResponse) mediaRequest sampleWorld).1
        = some partialResponse ∧
      (getStore (onFetch (fun _ => some partialResponse) mediaRequest
        sampleWorld).2.settle.caches DYNAMIC_CACHE).bind
          (fun c => c.matchRequest mediaRequest) = none := by
  refine ⟨by decide, by decide, by decide, by decide, by decide⟩

/-- C4, amended. For a GET request whose path is not a static file (class API, Page or
Other), when the network resolves with an ok response `r`, the `fetch` handler runs
`networkFirst` on the dynamic store and responds with `r`. At the point of return the
dynamic store has been opened and one `put` of `r` under the request has been called on
it, and on no other store, without being awaited: the write is in flight and no entry of
any store has changed. Once the put has completed the dynamic store maps the request to
`r`, provided the platform accepted it; with no other write in flight, every other store is
then as it was. -/
theorem onFetch_non_static_ok_put_issued (net : Network) (request : Request) (w : World)
    (r : Response) (hget : request.method = "GET")
    (hclass : classify request.url.pathname ≠ ResourceClass.Static)
    (hnet : net request = some r) (hok : r.ok = true) :
    onFetch net request w =
        (some (networkFirst net request DYNAMIC_CACHE w).1,
          (networkFirst net request DYNAMIC_CACHE w).2) ∧
      (onFetch net request w).1 = some r ∧
      (onFetch net request w).2.trace =
        w.trace ++ [.fetch request, .cachesOpen DYNAMIC_CACHE,
          .cachePut DYNAMIC_CACHE request r] ∧
      (onFetch net request w).2.pending =
        w.pending ++ [PendingPut.mk DYNAMIC_CACHE request r] ∧
      (onFetch net request w).2.caches = cachesOpen w.caches DYNAMIC_CACHE ∧
      (∀ n, n ≠ DYNAMIC_CACHE →
        getStore (onFetch net request w).2.caches n = getStore w.caches n) ∧
      (putAccepted request r = true →
        (getStore (onFetch net request w).2.settle.caches DYNAMIC_CACHE).bind
          (fun c => c.matchRequest request) = some r) ∧
      (w.pending = [] → ∀ n, n ≠ DYNAMIC_CACHE →
        getStore (onFetch net request w).2.settle.caches n = getStore w.caches n) := by
  have hs : isStaticFile request.url.pathname = false := by
    cases h : isStaticFile request.url.pathname with
    | false => rfl
    | true => exact absurd ((classify_eq_Static_iff _).mpr h) hclass
  have h1 := onFetch_of_not_static net request w hget hs
  have h2 := networkFirst_ok net request DYNAMIC_CACHE w r hnet hok
  refine ⟨h1, ?_, ?_, ?_, ?_, ?_, ?_, ?_⟩
  · rw [h1, h2]
  · rw [h1, h2]
    simp [openAndPut, World.record, Response.clone]
  · rw [h1, h2]
    rfl
  · rw [h1, h2]
    rfl
  · intro n hn
    rw [h1, h2]
    exact getStore_cachesOpen_of_ne w.caches DYNAMIC_CACHE n hn
  · intro hacc
    rw [h1, h2]
    exact getStore_settle_openAndPut (w.record (.fetch request)) DYNAMIC_CACHE request r hacc
  · intro hq n hn
    rw [h1, h2]
    have h := settle_openAndPut_caches (w.record (.fetch request)) DYNAMIC_CACHE request r
    have hp : (w.record (.fetch request)).pending = [] := hq
    rw [hp] at h
    simp only [List.foldl_nil] at h
    show getStore (openAndPut (w.record (.fetch request)) DYNAMIC_CACHE request r).settle.caches
      n = getStore w.caches n
    rw [h, getStore_cachesPut, if_neg hn]
    exact getStore_cachesOpen_of_ne w.caches DYNAMIC_CACHE n hn

theorem onFetch_non_static_ok_put_issued_witness :
    (scheduleRequest.method = "GET" ∧
      classify scheduleRequest.url.pathname ≠ ResourceClass.Static ∧
      (fun _ => some okResponse : Network) scheduleRequest = some okResponse ∧
      okResponse.ok = true ∧ putAccepted scheduleRequest okResponse = true) ∧
    (onFetch (fun _ => some okResponse) scheduleRequest sampleWorld).1 = some okResponse ∧
    (onFetch (fun _ => some okResponse) scheduleRequest sampleWorld).2.pending =
      sampleWorld.pending ++ [PendingPut.mk DYNAMIC_CACHE scheduleRequest okResponse] ∧
    (getStore (onFetch (fun _ => some okResponse) scheduleRequest sampleWorld).2.settle.caches
      DYNAMIC_CACHE).bind (fun c => c.matchRequest scheduleRequest) = some okResponse :=
  ⟨⟨rfl, by decide, rfl, rfl, by decide⟩,
    (onFetch_non_static_ok_put_issued (fun _ => some okResponse) scheduleRequest sampleWorld
      okResponse rfl (by decide) rfl rfl).2.1,
    (onFetch_non_static_ok_put_issued (fun _ => some okResponse) scheduleRequest sampleWorld
      okResponse rfl (by decide) rfl rfl).2.2.2.1,
    (onFetch_non_static_ok_put_issued (fun _ => some okResponse) scheduleRequest sampleWorld
      okResponse rfl (by decide) rfl rfl).2.2.2.2.2.2.1 (by decide)⟩

/-- C5. For a static-file path and a storage in which some store holds an entry for the
request, `cacheFirst` returns a response stored under the request, its only platform call
is the lookup `caches.match` (no fetch, no `put`), and the storage is unchanged. A GET
request with such a path is answered by the handler in this way. -/
theorem cacheFirst_hit_no_network (net : Network) (request : Request) (cacheName : String)
    (w : World) (hstatic : isStaticFile request.url.pathname = true)
    (hhit : ∃ s ∈ w.caches, (s.2.matchRequest request).isSome = true) :
    (∃ s ∈ w.caches,
        s.2.matchRequest request = some (cacheFirst net request cacheName w).1) ∧
      (cacheFirst net request cacheName w).2.trace = w.trace ++ [.cachesMatch request] ∧
      fetchCount (cacheFirst net request cacheName w).2.trace = fetchCount w.trace ∧
      putsOf (cacheFirst net request cacheName w).2.trace = putsOf w.trace ∧
      (cacheFirst net request cacheName w).2.caches = w.caches ∧
      (request.method = "GET" →
        onFetch net request w =
          (some (cacheFirst net request STATIC_CACHE w).1,
            (cacheFirst net request STATIC_CACHE w).2)) := by
  have hne : cachesMatch w.caches request ≠ none := by
    intro hnone
    obtain ⟨s, hs, hsome⟩ := hhit
    rw [(cachesMatch_eq_none_iff _ _).mp hnone s hs] at hsome
    simp at hsome
  obtain ⟨r, hr⟩ := Option.ne_none_iff_exists'.mp hne
  rw [cacheFirst_hit net request cacheName w r hr]
  refine ⟨cachesMatch_some_mem _ _ _ hr, rfl, ?_, ?_, rfl, ?_⟩
  · simp [World.record, fetchCount]
  · simp [World.record, putsOf]
  · intro hget
    exact onFetch_of_static net request w hget hstatic

theorem cacheFirst_hit_no_network_witness :
    (isStaticFile styleRequest.url.pathname = true ∧
      ∃ s ∈ sampleWorld.caches, (s.2.matchRequest styleRequest).isSome = true) ∧
    (cacheFirst networkDown styleRequest STATIC_CACHE sampleWorld).2.trace =
      sampleWorld.trace ++ [.cachesMatch styleRequest] ∧
    (cacheFirst networkDown styleRequest STATIC_CACHE sampleWorld).2.caches =
      sampleWorld.caches :=
  ⟨⟨by decide, by decide⟩,
    (cacheFirst_hit_no_network networkDown styleRequest STATIC_CACHE sampleWorld (by decide)
      (by decide)).2.1,
    (cacheFirst_hit_no_network networkDown styleRequest STATIC_CACHE sampleWorld (by decide)
      (by decide)).2.2.2.2.1⟩

/-- C6, refuted as stated. The style sheet request starts from an empty storage and the
network answers 200: a second `cacheFirst` call in the state the first call returns, where
the put is still in flight, misses and fetches again. And when the network answers the ok
status 206, the static store holds no entry for the request even once the put has settled,
and a second call in that state fetches again. -/
theorem cacheFirst_second_call_fetches_again :
    cachesMatch emptyWorld.caches styleRequest = none ∧
      fetchCount (cacheFirst (fun _ => some cssResponse) styleRequest STATIC_CACHE
        (cacheFirst (fun _ => some cssResponse) styleRequest STATIC_CACHE
          emptyWorld).2).2.trace = 2 ∧
      partialResponse.ok = true ∧
      (cacheFirst (fun _ => some partialResponse) styleRequest STATIC_CACHE emptyWorld).1
        = partialResponse ∧
      (getStore (cacheFirst (fun _ => some partialResponse) styleRequest STATIC_CACHE
        emptyWorld).2.settle.caches STATIC_CACHE).bind
          (fun c => c.matchRequest styleRequest) = none ∧
      fetchCount (cacheFirst (fun _ => some partialResponse) styleRequest STATIC_CACHE
        (cacheFirst (fun _ => some partialResponse) styleRequest STATIC_CACHE
          emptyWorld).2.settle).2.trace = 2 := by
  refine ⟨by decide, by decide, by decide, by decide, by decide, by decide⟩

/-- C6, amended. For a static-file request that no store answers and for which no write
is in flight, `cacheFirst` on the static store performs exactly one network fetch. When
that fetch resolves with an ok response `r`, the response returned is `r` and a put of `r`
into the static store has been called, not awaited. Once that put has completed, and
provided the platform accepted it, the static store maps the request to `r`, and a second
`cacheFirst` call for the request in that state, whatever the network does then, returns
`r` after the lookup alone: no fetch, no put, storage unchanged. -/
theorem cacheFirst_miss_then_hit_after_put (net : Network) (request : Request) (w : World)
    (hstatic : isStaticFile request.url.pathname = true)
    (hmiss : ∀ s ∈ w.caches, s.2.matchRequest request = none)
    (hpend : ∀ p ∈ w.pending, p.request ≠ request) :
    (request.method = "GET" →
        onFetch net request w =
          (some (cacheFirst net request STATIC_CACHE w).1,
            (cacheFirst net request STATIC_CACHE w).2)) ∧
      fetchCount (cacheFirst net request STATIC_CACHE w).2.trace = fetchCount w.trace + 1 ∧
      ∀ r, net request = some r → r.ok = true →
        (cacheFirst net request STATIC_CACHE w).1 = r ∧
          (cacheFirst net request STATIC_CACHE w).2.pending =
            w.pending ++ [PendingPut.mk STATIC_CACHE request r] ∧
          (putAccepted request r = true →
            (getStore (cacheFirst net request STATIC_CACHE w).2.settle.caches
              STATIC_CACHE).bind (fun c => c.matchRequest request) = some r ∧
            ∀ net2 : Network,
              cacheFirst net2 request STATIC_CACHE
                  (cacheFirst net request STATIC_CACHE w).2.settle =
                (r, (cacheFirst net request STATIC_CACHE w).2.settle.record
                  (.cachesMatch request)) ∧
              fetchCount
                (cacheFirst net2 request STATIC_CACHE
                  (cacheFirst net request STATIC_CACHE w).2.settle).2.trace =
                fetchCount (cacheFirst net request STATIC_CACHE w).2.trace) := by
  have hm : cachesMatch w.caches request = none := (cachesMatch_eq_none_iff _ _).mpr hmiss
  refine ⟨fun hget => onFetch_of_static net request w hget hstatic, ?_, ?_⟩
  · cases hnet : net request with
    | none =>
      rw [cacheFirst_miss_fail net request STATIC_CACHE w hm hnet]
      simp [World.record, fetchCount, List.countP_append]
    | some r =>
      cases hok : r.ok with
      | false =>
        rw [cacheFirst_miss_not_ok net request STATIC_CACHE w r hm hnet hok]
        simp [World.record, fetchCount, List.countP_append]
      | true =>
        rw [cacheFirst_miss_ok net request STATIC_CACHE w r hm hnet hok]
        simp [World.record, openAndPut, fetchCount, List.countP_append, List.countP_cons]
  · intro r hnet hok
    rw [cacheFirst_miss_ok net request STATIC_CACHE w r hm hnet hok]
    refine ⟨rfl, rfl, ?_⟩
    intro hacc
    refine ⟨getStore_settle_openAndPut _ STATIC_CACHE request r hacc, ?_⟩
    intro net2
    have h2 : cachesMatch
        (openAndPut ((w.record (.cachesMatch request)).record (.fetch request)) STATIC_CACHE
          request r).settle.caches request = some r :=
      cachesMatch_settle_openAndPut _ STATIC_CACHE request r hacc hpend hmiss
    have h3 := cacheFirst_hit net2 request STATIC_CACHE
      (openAndPut ((w.record (.cachesMatch request)).record (.fetch request)) STATIC_CACHE
        request r).settle r h2
    refine ⟨h3, ?_⟩
    rw [h3]
    simp [World.record, World.settle, fetchCount, List.countP_append]

theorem cacheFirst_miss_then_hit_after_put_witness :
    (isStaticFile styleRequest.url.pathname = true ∧
      (∀ s ∈ emptyWorld.caches, s.2.matchRequest styleRequest = none) ∧
      (∀ p ∈ emptyWorld.pending, p.request ≠ styleRequest) ∧
      putAccepted styleRequest cssResponse = true) ∧
    fetchCount (cacheFirst (fun _ => some cssResponse) styleRequest STATIC_CACHE
      emptyWorld).2.trace = fetchCount emptyWorld.trace + 1 ∧
    (cacheFirst networkDown styleRequest STATIC_CACHE
      (cacheFirst (fun _ => some cssResponse) styleRequest STATIC_CACHE
        emptyWorld).2.settle).1 = cssResponse :=
  ⟨⟨by decide, by decide, by decide, by decide⟩,
    (cacheFirst_miss_then_hit_after_put (fun _ => some cssResponse) styleRequest emptyWorld
      (by decide) (by decide) (by decide)).2.1,
    congrArg Prod.fst
      ((((cacheFirst_miss_then_hit_after_put (fun _ => some cssResponse) styleRequest
        emptyWorld (by decide) (by decide) (by decide)).2.2 cssResponse rfl rfl).2.2
          (by decide)).2 networkDown).1⟩

/-- C7. Activation deletes exactly the stores whose name is neither `static-cache-v1` nor
`dynamic-cache-v1`: the storage afterwards is the prior storage restricted to the stores
named by one of the two ids, each with its contents, the store names are the prior names
among the two ids, and the `caches.delete` calls made are those of the other names. -/
theorem onActivate_keeps_current_stores (w : World) :
    STATIC_CACHE = "static-cache-v1" ∧ DYNAMIC_CACHE = "dynamic-cache-v1" ∧
      (onActivate w).caches =
        w.caches.filter (fun s => decide (s.1 = STATIC_CACHE ∨ s.1 = DYNAMIC_CACHE)) ∧
      cachesKeys (onActivate w).caches =
        (cachesKeys w.caches).filter
          (fun n => decide (n = STATIC_CACHE ∨ n = DYNAMIC_CACHE)) ∧
      (∀ n, n = STATIC_CACHE ∨ n = DYNAMIC_CACHE →
        getStore (onActivate w).caches n = getStore w.caches n) ∧
      (onActivate w).trace =
        w.trace ++ [.cachesKeys] ++
          ((cachesKeys w.caches).filter
            (fun n => decide (n ≠ STATIC_CACHE ∧ n ≠ DYNAMIC_CACHE))).map
            Effect.cachesDelete := by
  have hc : (onActivate w).caches =
      w.caches.filter (fun s => decide (s.1 = STATIC_CACHE ∨ s.1 = DYNAMIC_CACHE)) := by
    unfold onActivate
    rw [foldl_activateStep_caches]
    apply List.filter_congr
    intro s hs
    have hmem : s.1 ∈ cachesKeys w.caches := List.mem_map.mpr ⟨s, hs, rfl⟩
    simp [hmem]
  refine ⟨rfl, rfl, hc, ?_, ?_, ?_⟩
  · rw [hc]
    unfold cachesKeys
    rw [List.filter_map]
    rfl
  · intro n hn
    rw [hc]
    unfold getStore
    rw [List.find?_filter]
    congr 2
    funext s
    by_cases hsn : s.1 = n
    · simp [hsn, hn]
    · simp [hsn]
  · unfold onActivate
    rw [foldl_activateStep_trace]
    rfl

/-- C8. For a request whose method is not GET the `fetch` handler supplies no response and
returns the world as it received it: storage and trace unchanged, so no lookup, no write,
no fetch. For every request, each store key the handler reads or writes is the request
itself and its method is GET. -/
theorem onFetch_non_GET_passthrough (net : Network) (request : Request) (w : World) :
    (request.method ≠ "GET" → onFetch net request w = (none, w)) ∧
      ∃ ext, (onFetch net request w).2.trace = w.trace ++ ext ∧
        ∀ e ∈ ext, ∀ k, e.key? = some k → k = request ∧ k.method = "GET" := by
  constructor
  · intro h
    unfold onFetch
    simp only [h, ne_eq, not_false_eq_true, if_true]
  · by_cases hget : request.method = "GET"
    · cases hs : isStaticFile request.url.pathname with
      | true =>
        rw [onFetch_of_static net request w hget hs]
        obtain ⟨ext, h1, h2⟩ := cacheFirst_trace_keys net request STATIC_CACHE w
        refine ⟨ext, h1, fun e he k hk => ?_⟩
        have := h2 e he k hk
        exact ⟨this, this ▸ hget⟩
      | false =>
        rw [onFetch_of_not_static net request w hget hs]
        obtain ⟨ext, h1, h2⟩ := networkFirst_trace_keys net request DYNAMIC_CACHE w
        refine ⟨ext, h1, fun e he k hk => ?_⟩
        have := h2 e he k hk
        exact ⟨this, this ▸ hget⟩
    · refine ⟨[], ?_, by simp⟩
      unfold onFetch
      simp [hget]

theorem onFetch_non_GET_passthrough_witness :
    submitRequest.method ≠ "GET" ∧
      onFetch (fun _ => some okResponse) submitRequest sampleWorld = (none, sampleWorld) :=
  ⟨by decide,
    (onFetch_non_GET_passthrough (fun _ => some okResponse) submitRequest sampleWorld).1
      (by decide)⟩

/-- C9, refuted as stated: no path that does not begin with `/api/` is an API request,
since each pattern of `API_CACHE_PATTERNS` is anchored at the start and begins with
`/api/` itself. -/
theorem no_isAPIRequest_outside_api :
    ¬ ∃ pathname : String, startsWith pathname "/api/" = false ∧ isAPIRequest pathname = true := by
  rintro ⟨pathname, h1, h2⟩
  unfold isAPIRequest at h2
  rw [h1, Bool.false_or] at h2
  rw [apiPattern_startsWith pathname h2] at h1
  exact Bool.noConfusion h1

/-- C9, amended. The pattern list adds nothing to the generic test: `isAPIRequest` holds
of a path exactly when the path begins with `/api/`, and every path one of the patterns of
`API_CACHE_PATTERNS` matches begins with `/api/`. -/
theorem isAPIRequest_eq_startsWith_api (pathname : String) :
    isAPIRequest pathname = startsWith pathname "/api/" ∧
      (∀ pattern ∈ API_CACHE_PATTERNS, pattern.test pathname = true →
        startsWith pathname "/api/" = true) := by
  constructor
  · unfold isAPIRequest
    cases h : API_CACHE_PATTERNS.any (fun pattern => pattern.test pathname) with
    | false => simp
    | true => simp [apiPattern_startsWith pathname h]
  · intro pattern hp ht
    exact apiPattern_startsWith pathname (List.any_eq_true.mpr ⟨pattern, hp, ht⟩)

/-- C10, refuted as stated: the designated static store holds no entry for the request,
the dynamic store holds one, and `cacheFirst` on the static store returns that entry
without a network fetch. -/
theorem cacheFirst_hit_in_other_store :
    (getStore crossWorld.caches STATIC_CACHE).bind
        (fun c => c.matchRequest styleRequest) = none ∧
      (cacheFirst (fun _ => some okResponse) styleRequest STATIC_CACHE crossWorld).1
        = cssResponse ∧
      fetchCount (cacheFirst (fun _ => some okResponse) styleRequest STATIC_CACHE
        crossWorld).2.trace = 0 := by
  refine ⟨by decide, by decide, by decide⟩

/-- C10, amended. `cacheFirst(request, cacheName)` decides hit or miss by a lookup over
all stores; `cacheName` only names the store it writes to. It performs a network fetch
(exactly one) exactly when no store at all holds an entry for the request. When some store,
designated or not, holds one, it performs no fetch and returns the entry of the first store
in storage order that holds one, after the lookup alone. -/
theorem cacheFirst_fetch_iff_all_miss (net : Network) (request : Request)
    (cacheName : String) (w : World) :
    (fetchCount (cacheFirst net request cacheName w).2.trace = fetchCount w.trace + 1 ↔
        ∀ s ∈ w.caches, s.2.matchRequest request = none) ∧
      (fetchCount (cacheFirst net request cacheName w).2.trace = fetchCount w.trace ↔
        ∃ s ∈ w.caches, (s.2.matchRequest request).isSome = true) ∧
      (∀ before s later r, w.caches = before ++ s :: later →
        (∀ t ∈ before, t.2.matchRequest request = none) →
        s.2.matchRequest request = some r →
        cacheFirst net request cacheName w = (r, w.record (.cachesMatch request))) := by
  have hfirst : ∀ before s later r, w.caches = before ++ s :: later →
      (∀ t ∈ before, t.2.matchRequest request = none) →
      s.2.matchRequest request = some r →
      cacheFirst net request cacheName w = (r, w.record (.cachesMatch request)) := by
    intro before s later r hsplit hbefore hs
    apply cacheFirst_hit
    have hb : cachesMatch before request = none := (cachesMatch_eq_none_iff _ _).mpr hbefore
    unfold cachesMatch at hb ⊢
    rw [hsplit, List.findSome?_append, hb, Option.none_or, List.findSome?_cons, hs]
  cases hm : cachesMatch w.caches request with
  | some c =>
    have hne : ¬ ∀ s ∈ w.caches, s.2.matchRequest request = none := by
      intro h
      rw [(cachesMatch_eq_none_iff _ _).mpr h] at hm
      exact Option.noConfusion hm
    have hex : ∃ s ∈ w.caches, (s.2.matchRequest request).isSome = true := by
      obtain ⟨s, hs, hsr⟩ := cachesMatch_some_mem _ _ _ hm
      exact ⟨s, hs, by rw [hsr]; rfl⟩
    have hcount : fetchCount (cacheFirst net request cacheName w).2.trace
        = fetchCount w.trace := by
      rw [cacheFirst_hit net request cacheName w c hm]
      simp [World.record, fetchCount, List.countP_append]
    rw [hcount]
    exact ⟨⟨fun h => absurd h (by omega), fun h => absurd h hne⟩, ⟨fun _ => hex, fun _ => rfl⟩,
      hfirst⟩
  | none =>
    have hall := (cachesMatch_eq_none_iff _ _).mp hm
    have hnex : ¬ ∃ s ∈ w.caches, (s.2.matchRequest request).isSome = true := by
      rintro ⟨s, hs, hsome⟩
      rw [hall s hs] at hsome
      exact Bool.noConfusion hsome
    have hcount : fetchCount (cacheFirst net request cacheName w).2.trace
        = fetchCount w.trace + 1 := by
      cases hnet : net request with
      | none =>
        rw [cacheFirst_miss_fail net request cacheName w hm hnet]
        simp [World.record, fetchCount, List.countP_append]
      | some r =>
        cases hok : r.ok with
        | false =>
          rw [cacheFirst_miss_not_ok net request cacheName w r hm hnet hok]
          simp [World.record, fetchCount, List.countP_append]
        | true =>
          rw [cacheFirst_miss_ok net request cacheName w r hm hnet hok]
          simp [World.record, openAndPut, fetchCount, List.countP_append, List.countP_cons]
    rw [hcount]
    exact ⟨⟨fun _ => hall, fun _ => rfl⟩, ⟨fun h => absurd h (by omega), fun h => absurd h hnex⟩,
      hfirst⟩

/-- C10, the amended statement at a concrete storage: the static store is empty, the dynamic
store holds the entry, and `cacheFirst` on the static store returns that entry after the
lookup alone. -/
theorem cacheFirst_fetch_iff_all_miss_witness :
    cacheFirst networkDown styleRequest STATIC_CACHE crossWorld =
      (cssResponse, crossWorld.record (.cachesMatch styleRequest)) :=
  (cacheFirst_fetch_iff_all_miss networkDown styleRequest STATIC_CACHE crossWorld).2.2
    [(STATIC_CACHE, [])] (DYNAMIC_CACHE, [(styleRequest, cssResponse)]) [] cssResponse
    rfl (by decide) (by decide)

end ServiceWorker
